import Mathlib

/-!
Verification of the mev-boost (uncensored fork) configuration layer.

The development shallowly embeds `cli/main.go`: the eth-to-wei conversion
`floatEthTo256Wei` (Go `big.Float` arithmetic at 53-bit precision), the
environment/flag defaulting helpers, the startup resolution performed by
`Main` up to the construction of `server.BoostServiceOpts`, and the startup
relay-check step.  The bid-arbitration engine of the `server` package is not
among the provided sources; its selection algorithm is modelled from the
specification where a claim needs it.

Machine reals are embedded exactly: a Go `float64` is a dyadic rational
`sig / 2 ^ exp`, and `big.Float` rounding at precision 53 is round to
nearest, ties to even, on 53 significant binary digits.
-/

/-- Dyadic-rational embedding of a Go `float64` value: the real number
`sig / 2 ^ exp`.  Every finite `float64` is representable in this form
(with `|sig| < 2 ^ 53` after scaling); the embedding is exact. -/
structure F64 where
  sig : ℤ
  exp : ℕ
deriving DecidableEq

/-- Value of the Go source literal `0.001` (the `defaultRelayMinBidEth`
fallback): the IEEE-754 binary64 number nearest to 1/1000, which is exactly
`4611686018427388 / 2 ^ 62`. -/
def lit0001 : F64 := ⟨4611686018427388, 62⟩

/-- Fuel-driven counter of the binary right-shifts needed to bring `a`
below `2 ^ 53`.  The fuel only bounds the recursion; `shiftAux a a` always
has enough fuel since each step halves `a`. -/
def shiftAux : ℕ → ℕ → ℕ
  | 0, _ => 0
  | fuel + 1, a => if a < 2 ^ 53 then 0 else shiftAux fuel (a / 2) + 1

/-- Number of binary digits of `a` in excess of 53 (0 if `a < 2 ^ 53`). -/
def excess53 (a : ℕ) : ℕ := shiftAux a a

/-- Rounding of a natural number to 53 significant binary digits, round to
nearest with ties to even.  This is what `big.Float.Mul` does to the exact
product when the receiver has precision 53, as in `floatEthTo256Wei` where
the receiver was initialised with `SetFloat64` (precision 53: the product of
the 53-bit multiplicand and the 60-bit constant 10^18 is rounded back to 53
bits).  Scaling by a power of two commutes with this rounding, so it is
stated on the integer numerator. -/
def roundNE53 (a : ℕ) : ℕ :=
  if a < 2 ^ 53 then a
  else
    if 2 ^ (excess53 a - 1) < a % 2 ^ excess53 a ∨
        (a % 2 ^ excess53 a = 2 ^ (excess53 a - 1) ∧ a / 2 ^ excess53 a % 2 = 1)
    then (a / 2 ^ excess53 a + 1) * 2 ^ excess53 a
    else a / 2 ^ excess53 a * 2 ^ excess53 a

/-- Embedding of `floatEthTo256Wei` from `cli/main.go`:
`bigval.SetFloat64(val)` is exact (precision 53); `wad.SetInt(10^18)` is
exact; `bigval.Mul(bigval, wad)` rounds the exact product to `bigval`'s
precision 53 (nearest, ties to even); `bigval.Int(result)` truncates toward
zero; `u256.FromBig(result)` is the checked conversion of the external
`go-boost-utils` dependency into an unsigned 256-bit integer, modelled as
failing exactly when the integer is negative or does not fit in 256 bits. -/
def floatEthTo256Wei (v : F64) : Except String ℕ :=
  if v.sig < 0 then Except.error "invalid conversion to U256"
  else if roundNE53 (v.sig.toNat * 10 ^ 18) / 2 ^ v.exp < 2 ^ 256 then
    Except.ok (roundNE53 (v.sig.toNat * 10 ^ 18) / 2 ^ v.exp)
  else Except.error "invalid conversion to U256"

/-- Embedding of `getEnv` from `cli/main.go`; the process environment is a
partial map from variable names to values. -/
def getEnv (env : String → Option String) (key defaultValue : String) : String :=
  (env key).getD defaultValue

/-- Digit-string accumulator used by the `strconv.Atoi` model. -/
def digitsVal : List Char → ℕ → Option ℕ
  | [], acc => some acc
  | c :: rest, acc =>
    if c.isDigit then digitsVal rest (acc * 10 + (c.toNat - 48)) else none

/-- Model of Go `strconv.Atoi` (base-10, 64-bit `int`): optional sign,
at least one digit, no other characters, and the value must fit in
`[-2^63, 2^63 - 1]`; `none` stands for a non-nil error. -/
def parseAtoi (s : String) : Option ℤ :=
  match s.data with
  | [] => none
  | '+' :: rest =>
    match rest with
    | [] => none
    | _ => (digitsVal rest 0).bind fun n =>
        if n ≤ 2 ^ 63 - 1 then some (n : ℤ) else none
  | '-' :: rest =>
    match rest with
    | [] => none
    | _ => (digitsVal rest 0).bind fun n =>
        if n ≤ 2 ^ 63 then some (-(n : ℤ)) else none
  | l => (digitsVal l 0).bind fun n =>
      if n ≤ 2 ^ 63 - 1 then some (n : ℤ) else none

/-- Embedding of `getEnvInt` from `cli/main.go`: the variable's value is
used only when present and parseable, otherwise the default applies. -/
def getEnvInt (env : String → Option String) (key : String) (defaultValue : ℤ) : ℤ :=
  match env key with
  | some s => (parseAtoi s).getD defaultValue
  | none => defaultValue

/-- Embedding of `getEnvFloat64` from `cli/main.go`.  `strconv.ParseFloat`
is abstracted as a parser argument `parseF` (`none` standing for a non-nil
error); the theorems below quantify over it. -/
def getEnvFloat64 (parseF : String → Option F64) (env : String → Option String)
    (key : String) (defaultValue : F64) : F64 :=
  match env key with
  | some s => (parseF s).getD defaultValue
  | none => defaultValue

/-- Constant `genesisForkVersionMainnet` of `cli/main.go`. -/
def genesisForkVersionMainnet : String := "0x00000000"

/-- Constant `genesisForkVersionSepolia` of `cli/main.go`. -/
def genesisForkVersionSepolia : String := "0x90000069"

/-- Constant `genesisForkVersionGoerli` of `cli/main.go`. -/
def genesisForkVersionGoerli : String := "0x00001020"

/-- Genesis-fork-version selection of `Main` (`cli/main.go`): a non-empty
custom value wins, then the `-mainnet`, `-sepolia`, `-goerli` booleans in
that order, else a fatal error. -/
def resolveGenesisForkVersion (custom : String)
    (useMainnet useSepolia useGoerli : Bool) : Except String String :=
  if custom ≠ "" then Except.ok custom
  else if useMainnet then Except.ok genesisForkVersionMainnet
  else if useSepolia then Except.ok genesisForkVersionSepolia
  else if useGoerli then Except.ok genesisForkVersionGoerli
  else Except.error
    "please specify a genesis fork version (eg. -mainnet / -sepolia / -goerli / -genesis-fork-version flags)"

/-- Modelled from the spec: a relay descriptor carries an endpoint identity
and a declared public key.  The `RelayEntry` type and its URL parser live in
repository code outside the provided sources. -/
structure RelayEntry where
  urlStr : String
  publicKey : String
deriving DecidableEq

/-- Appending loop of `Main` over the comma-separated `-relays` list: each
entry has already been through the URL parser (missing from the provided
sources, so an entry is embedded as its parse outcome); the first invalid
entry is fatal, valid entries are appended in order after the repeatable
`-relay` flag's entries. -/
def relayFold (acc : List RelayEntry) :
    List (Except String RelayEntry) → Except String (List RelayEntry)
  | [] => Except.ok acc
  | Except.ok r :: rest => relayFold (acc ++ [r]) rest
  | Except.error _ :: _ => Except.error "Invalid relay URL"

/-- Appending loop of `Main` over the comma-separated `-relay-monitors`
list, analogous to `relayFold`. -/
def monitorFold (acc : List String) :
    List (Except String String) → Except String (List String)
  | [] => Except.ok acc
  | Except.ok m :: rest => monitorFold (acc ++ [m]) rest
  | Except.error _ :: _ => Except.error "Invalid relay monitor URL"

/-- Default `defaultTimeoutMsGetHeader` of `cli/main.go`:
`getEnvInt("RELAY_TIMEOUT_MS_GETHEADER", 950)`. -/
def defaultTimeoutMsGetHeader (env : String → Option String) : ℤ :=
  getEnvInt env "RELAY_TIMEOUT_MS_GETHEADER" 950

/-- Default `defaultTimeoutMsGetPayload` of `cli/main.go`:
`getEnvInt("RELAY_TIMEOUT_MS_GETPAYLOAD", 4000)`. -/
def defaultTimeoutMsGetPayload (env : String → Option String) : ℤ :=
  getEnvInt env "RELAY_TIMEOUT_MS_GETPAYLOAD" 4000

/-- Default `defaultTimeoutMsRegisterValidator` of `cli/main.go`:
`getEnvInt("RELAY_TIMEOUT_MS_REGVAL", 3000)`. -/
def defaultTimeoutMsRegisterValidator (env : String → Option String) : ℤ :=
  getEnvInt env "RELAY_TIMEOUT_MS_REGVAL" 3000

/-- Value of the `-request-timeout-getheader` flag: the supplied value, or
the environment-derived default when the flag is absent. -/
def resolvedTimeoutGetHeaderMs (env : String → Option String) (flagVal : Option ℤ) : ℤ :=
  flagVal.getD (defaultTimeoutMsGetHeader env)

/-- Value of the `-request-timeout-getpayload` flag, defaulted as above. -/
def resolvedTimeoutGetPayloadMs (env : String → Option String) (flagVal : Option ℤ) : ℤ :=
  flagVal.getD (defaultTimeoutMsGetPayload env)

/-- Value of the `-request-timeout-regval` flag, defaulted as above. -/
def resolvedTimeoutRegValMs (env : String → Option String) (flagVal : Option ℤ) : ℤ :=
  flagVal.getD (defaultTimeoutMsRegisterValidator env)

/-- Default `defaultGenesisForkVersion` of `cli/main.go`:
`getEnv("GENESIS_FORK_VERSION", "")`. -/
def defaultGenesisForkVersion (env : String → Option String) : String :=
  getEnv env "GENESIS_FORK_VERSION" ""

/-- Default `defaultRelayMinBidEth` of `cli/main.go`:
`getEnvFloat64("RELAY_MIN_BID", 0.001)`. -/
def defaultRelayMinBidEth (parseF : String → Option F64)
    (env : String → Option String) : F64 :=
  getEnvFloat64 parseF env "RELAY_MIN_BID" lit0001

/-- Value of the `-min-bid` flag: the supplied value, or the
environment-derived default when the flag is absent. -/
def resolvedMinBid (parseF : String → Option F64) (env : String → Option String)
    (flagVal : Option F64) : F64 :=
  flagVal.getD (defaultRelayMinBidEth parseF env)

/-- Minimum-bid gate of `Main` (`cli/main.go`), in source order: fatal when
the resolved eth value is negative (`sig / 2^exp < 0` iff `sig < 0`), fatal
when it exceeds 1000000 (`sig / 2^exp > 10^6` iff `10^6 * 2^exp < sig`),
otherwise the wei conversion, whose error is re-labelled fatally. -/
def checkMinBid (v : F64) : Except String ℕ :=
  if v.sig < 0 then Except.error "Please specify a non-negative minimum bid"
  else if (1000000 : ℤ) * 2 ^ v.exp < v.sig then
    Except.error "Minimum bid is too large, please ensure min-bid is denominated in Ethers"
  else
    match floatEthTo256Wei v with
    | Except.error _ => Except.error "failed converting min bid"
    | Except.ok w => Except.ok w

/-- Embedding of `server.BoostServiceOpts` exactly as constructed at the end
of `Main` (`cli/main.go`): these are all of the configuration fields handed
to `server.NewBoostService` (the `Log` field, a logger handle carrying no
configuration data, is omitted).  Timeouts are kept in milliseconds; the Go
code multiplies them by `time.Millisecond`. -/
structure BoostServiceOpts where
  listenAddr : String
  relays : List RelayEntry
  relayMonitors : List String
  genesisForkVersionHex : String
  relayCheck : Bool
  relayMinBid : ℕ
  requestTimeoutGetHeaderMs : ℤ
  requestTimeoutGetPayloadMs : ℤ
  requestTimeoutRegValMs : ℤ
deriving DecidableEq

/-- Parsed command-line inputs to `Main`: each `Option` field is `none` when
the flag was not supplied (so its registered default applies).  `-relays`
and `-relay-monitors` entries are embedded as their URL-parse outcomes,
since the parser lives in repository code outside the provided sources. -/
structure MainArgs where
  customGenesis : Option String
  mainnet : Bool
  sepolia : Bool
  goerli : Bool
  relayFlag : List RelayEntry
  relaysCSV : List (Except String RelayEntry)
  relayMonitorFlag : List String
  relayMonitorsCSV : List (Except String String)
  minBidFlag : Option F64
  relayCheck : Bool
  timeoutGetHeaderFlag : Option ℤ
  timeoutGetPayloadFlag : Option ℤ
  timeoutRegValFlag : Option ℤ
  listenAddr : String

/-- Configuration phase of `Main` (`cli/main.go`), in source order: resolve
the genesis fork version (fatal if unresolvable), assemble the relay list
(fatal on an invalid entry), fatal if that list is empty, assemble the relay
monitors (fatal on an invalid entry), run the minimum-bid gate, and finally
build the `BoostServiceOpts` handed to `server.NewBoostService`.
`Except.error` is a `log.Fatal` exit with the given message. -/
def mainResolve (parseF : String → Option F64) (env : String → Option String)
    (a : MainArgs) : Except String BoostServiceOpts :=
  match resolveGenesisForkVersion (a.customGenesis.getD (defaultGenesisForkVersion env))
      a.mainnet a.sepolia a.goerli with
  | Except.error e => Except.error e
  | Except.ok g =>
    match relayFold a.relayFlag a.relaysCSV with
    | Except.error e => Except.error e
    | Except.ok rs =>
      if rs.length = 0 then Except.error "no relays specified"
      else
        match monitorFold a.relayMonitorFlag a.relayMonitorsCSV with
        | Except.error e => Except.error e
        | Except.ok ms =>
          match checkMinBid (resolvedMinBid parseF env a.minBidFlag) with
          | Except.error e => Except.error e
          | Except.ok w =>
            Except.ok
              { listenAddr := a.listenAddr
                relays := rs
                relayMonitors := ms
                genesisForkVersionHex := g
                relayCheck := a.relayCheck
                relayMinBid := w
                requestTimeoutGetHeaderMs := resolvedTimeoutGetHeaderMs env a.timeoutGetHeaderFlag
                requestTimeoutGetPayloadMs := resolvedTimeoutGetPayloadMs env a.timeoutGetPayloadFlag
                requestTimeoutRegValMs := resolvedTimeoutRegValMs env a.timeoutRegValFlag }

/-- Observable outcome of the startup tail of `Main` after the service is
created: whether `CheckRelays` was consulted, whether the zero-healthy-relay
error was logged, and whether the HTTP server was then started. -/
structure StartupResult where
  checkInvoked : Bool
  loggedError : Bool
  httpServerStarted : Bool
deriving DecidableEq

/-- Startup tail of `Main` (`cli/main.go`): the short-circuiting
`if *relayCheck && service.CheckRelays() == 0 { log.Error(...) }` followed
unconditionally by `service.StartHTTPServer()`.  `healthyRelays` is the
count `CheckRelays` would report. -/
def startupPhase (relayCheck : Bool) (healthyRelays : ℕ) : StartupResult :=
  if relayCheck then
    { checkInvoked := true
      loggedError := healthyRelays == 0
      httpServerStarted := true }
  else
    { checkInvoked := false
      loggedError := false
      httpServerStarted := true }

/-- Splitting of a flag token's body at its first `=`, as the Go standard
`flag` package does: the flag name and, when present, the inline value. -/
def splitFlagName : List Char → List Char × Option (List Char)
  | [] => ([], none)
  | '=' :: rest => ([], some rest)
  | c :: rest =>
    match splitFlagName rest with
    | (n, v) => (c :: n, v)

/-- Lookup of a registered flag by name; the Bool records whether the flag
is boolean (consumes no separate argument). -/
def lookupFlag : List (String × Bool) → List Char → Option Bool
  | [], _ => none
  | (n, b) :: ds, name => if n.data = name then some b else lookupFlag ds name

/-- Modelled from the Go standard `flag` package's `Parse` loop (the
command-line layer of `Main`): tokens shorter than two characters or not
starting with `-` stop parsing, a bare `--` terminates it, one or two
leading dashes are accepted, an unregistered name is the fatal
"flag provided but not defined" error, a boolean flag consumes no argument,
and a non-boolean flag without an inline `=value` consumes the next
token. -/
def parseFlagsCL (defs : List (String × Bool)) : List String → Except String Unit
  | [] => Except.ok ()
  | arg :: rest =>
    match arg.data with
    | [] => Except.ok ()
    | [_] => Except.ok ()
    | c :: cs =>
      if c ≠ '-' then Except.ok ()
      else
        match (match cs with
               | '-' :: cs2 => cs2
               | _ => cs) with
        | [] => Except.ok ()
        | body =>
          match splitFlagName body with
          | (name, inlineVal) =>
            match lookupFlag defs name with
            | none => Except.error ("flag provided but not defined: -" ++ String.mk name)
            | some true => parseFlagsCL defs rest
            | some false =>
              match inlineVal with
              | some _ => parseFlagsCL defs rest
              | none =>
                match rest with
                | [] => Except.error ("flag needs an argument: -" ++ String.mk name)
                | _ :: rest2 => parseFlagsCL defs rest2

/-- Complete list of the command-line flags registered by `cli/main.go`
(the only source file of the command-line layer provided), paired with
whether each is boolean.  `relay` and `relay-monitor` are registered through
`flag.Var` with a non-boolean `Value`. -/
def mainFlagDefs : List (String × Bool) :=
  [("version", true), ("json", true), ("loglevel", false), ("debug", true),
   ("log-service", false), ("log-no-version", true), ("addr", false),
   ("relays", false), ("relay-check", true), ("min-bid", false),
   ("relay-monitors", false), ("request-timeout-getheader", false),
   ("request-timeout-getpayload", false), ("request-timeout-regval", false),
   ("mainnet", true), ("sepolia", true), ("goerli", true),
   ("genesis-fork-version", false), ("relay", false), ("relay-monitor", false)]

/-- Command line of the repository README's own "Mainnet example"
invocation (public keys abbreviated; they are opaque to flag parsing). -/
def readmeExampleArgs : List String :=
  ["-mainnet", "-relay-check", "-relays",
   "https://0xad0a...@bloxroute.ethical.blxrbdn.com",
   "-censorship-penalty", "0.1", "-censoring-relays",
   "https://0xac6e...@boost-relay.flashbots.net,https://0x8b5d...@bloxroute.max-profit.blxrbdn.com"]

/-- Modelled from the spec: a validated get-header candidate (SignedBid) as
the arbitration engine sees it — its wei value, the `isCensoring` flag of
the relay that produced it, and that relay's registry position (the fixed
tie-break order).  The engine itself (`server` package) is not among the
provided sources. -/
structure Bid where
  value : ℕ
  isCensoring : Bool
  relay : ℕ
deriving DecidableEq

/-- Modelled from the spec: the maximum bid value among non-censoring
candidates, 0 when there are none (§4.3 step 1 as instantiated by the §8
scenario: with no normal bids the eligibility floor for a censoring bid is
`0 + penalty`). -/
def bestNormal (cands : List Bid) : ℕ :=
  (cands.filter fun b => !b.isCensoring).foldl (fun acc b => max acc b.value) 0

/-- Modelled from the spec: §4.3 step 2 — a censoring candidate is eligible
only if its value reaches `bestNormal + censorshipPenalty`; non-censoring
candidates are always eligible. -/
def eligibleBid (cands : List Bid) (censorshipPenalty : ℕ) (b : Bid) : Bool :=
  !b.isCensoring || decide (bestNormal cands + censorshipPenalty ≤ b.value)

/-- Modelled from the spec: one comparison step of winner selection — a
strictly higher value displaces the current leader, a tie keeps the earlier
(registry-ordered) one. -/
def selectStep (acc : Option Bid) (b : Bid) : Option Bid :=
  match acc with
  | none => some b
  | some w => if w.value < b.value then some b else some w

/-- Modelled from the spec: §4.3 step 3 — the maximum-value bid, ties
broken by the fixed registry order (the earlier candidate is kept). -/
def selectBest (cands : List Bid) : Option Bid :=
  cands.foldl selectStep none

/-- Modelled from the spec: §4.3 — the full selection algorithm: ineligible
censoring candidates are removed entirely, the best remaining bid wins, and
a winner below `minBid` yields "no qualifying bid" (`none`). -/
def arbitrate (cands : List Bid) (censorshipPenalty minBid : ℕ) : Option Bid :=
  match selectBest (cands.filter (eligibleBid cands censorshipPenalty)) with
  | none => none
  | some w => if minBid ≤ w.value then some w else none

/-- Empty process environment, used by concrete witnesses. -/
def env0 : String → Option String := fun _ => none

/-- Float parser that rejects every string, used by concrete witnesses. -/
def pf0 : String → Option F64 := fun _ => none

/-- Concrete relay used by the witness invocations. -/
def relay0 : RelayEntry := ⟨"https://relay.example.invalid", "0xa1b2"⟩

/-- Well-formed witness invocation: `-mainnet`, one `-relay`, everything
else left to its defaults. -/
def argsOk : MainArgs :=
  { customGenesis := none, mainnet := true, sepolia := false, goerli := false
    relayFlag := [relay0], relaysCSV := [], relayMonitorFlag := []
    relayMonitorsCSV := [], minBidFlag := none, relayCheck := false
    timeoutGetHeaderFlag := none, timeoutGetPayloadFlag := none
    timeoutRegValFlag := none, listenAddr := "localhost:18550" }

/-- Witness invocation with no genesis-fork-version selection and no
relays at all. -/
def argsNoGenesisNoRelays : MainArgs :=
  { argsOk with mainnet := false, relayFlag := [] }

/-- Witness invocation with no genesis-fork-version selection but one
relay configured. -/
def argsNoGenesisOneRelay : MainArgs :=
  { argsOk with mainnet := false }

/-- Witness invocation with an empty relay list but a valid genesis fork
version. -/
def argsNoRelays : MainArgs :=
  { argsOk with relayFlag := [] }

/-- Expected configuration object for `argsOk` under `env0`/`pf0`. -/
def optsOk : BoostServiceOpts :=
  { listenAddr := "localhost:18550", relays := [relay0], relayMonitors := []
    genesisForkVersionHex := "0x00000000", relayCheck := false
    relayMinBid := 10 ^ 15, requestTimeoutGetHeaderMs := 950
    requestTimeoutGetPayloadMs := 4000, requestTimeoutRegValMs := 3000 }

/-- Lower bound extracted from the shift counter: once `a` has at least 54
binary digits, `shiftAux fuel a` (with enough fuel) is at least 1 and `a`
has at least `shiftAux fuel a + 53` binary digits. -/
theorem shiftAux_lower :
    ∀ fuel a, a ≤ fuel → 2 ^ 53 ≤ a →
      2 ^ (shiftAux fuel a + 52) ≤ a ∧ 1 ≤ shiftAux fuel a := by
  intro fuel
  induction fuel with
  | zero =>
    intro a ha h53
    exfalso
    have hp : (0 : ℕ) < 2 ^ 53 := by positivity
    omega
  | succ f ih =>
    intro a ha h53
    have hnl : ¬ a < 2 ^ 53 := not_lt.2 h53
    simp only [shiftAux, if_neg hnl]
    by_cases h2 : 2 ^ 53 ≤ a / 2
    · have hlt : a / 2 < a := Nat.div_lt_self (by omega) (by omega)
      obtain ⟨hl, h1⟩ := ih (a / 2) (by omega) h2
      refine ⟨?_, by omega⟩
      have hexp : 2 ^ (shiftAux f (a / 2) + 1 + 52) =
          2 * 2 ^ (shiftAux f (a / 2) + 52) := by ring
      rw [hexp]
      omega
    · have h0 : shiftAux f (a / 2) = 0 := by
        cases f with
        | zero => rfl
        | succ f2 => simp only [shiftAux, if_pos (not_le.1 h2)]
      rw [h0]
      constructor
      · simpa using h53
      · omega

/-- Specialisation of `shiftAux_lower` to `excess53`. -/
theorem excess53_lower (a : ℕ) (h53 : 2 ^ 53 ≤ a) :
    2 ^ (excess53 a + 52) ≤ a ∧ 1 ≤ excess53 a :=
  shiftAux_lower a a le_rfl h53

/-- Rounding to 53 significant bits moves a natural number by at most one
half-ulp, which is at most `a / 2 ^ 53`. -/
theorem roundNE53_close (a : ℕ) :
    roundNE53 a ≤ a + a / 2 ^ 53 ∧ a ≤ roundNE53 a + a / 2 ^ 53 := by
  unfold roundNE53
  by_cases hlt : a < 2 ^ 53
  · rw [if_pos hlt]
    omega
  · rw [if_neg hlt]
    obtain ⟨hlow, hs1⟩ := excess53_lower a (not_lt.1 hlt)
    have hpow_pos : (0 : ℕ) < 2 ^ excess53 a := by positivity
    have hdm := Nat.div_add_mod a (2 ^ excess53 a)
    have hmod : a % 2 ^ excess53 a < 2 ^ excess53 a := Nat.mod_lt _ hpow_pos
    have hhalf : 2 ^ (excess53 a - 1) + 2 ^ (excess53 a - 1) = 2 ^ excess53 a := by
      have h2 : excess53 a - 1 + 1 = excess53 a := by omega
      calc 2 ^ (excess53 a - 1) + 2 ^ (excess53 a - 1)
          = 2 ^ (excess53 a - 1) * 2 := by ring
        _ = 2 ^ (excess53 a - 1 + 1) := (pow_succ 2 (excess53 a - 1)).symm
        _ = 2 ^ excess53 a := by rw [h2]
    have hdiv53 : 2 ^ (excess53 a - 1) ≤ a / 2 ^ 53 := by
      have hmul : 2 ^ (excess53 a - 1) * 2 ^ 53 ≤ a := by
        have hcomb : 2 ^ (excess53 a - 1) * 2 ^ 53 = 2 ^ (excess53 a + 52) := by
          rw [← pow_add]
          congr 1
          omega
        rw [hcomb]
        exact hlow
      exact (Nat.le_div_iff_mul_le (by positivity)).2 hmul
    by_cases hcond : 2 ^ (excess53 a - 1) < a % 2 ^ excess53 a ∨
        (a % 2 ^ excess53 a = 2 ^ (excess53 a - 1) ∧ a / 2 ^ excess53 a % 2 = 1)
    · rw [if_pos hcond]
      have hr : 2 ^ (excess53 a - 1) ≤ a % 2 ^ excess53 a := by
        rcases hcond with h | ⟨h, _⟩
        · omega
        · omega
      have hexpand : (a / 2 ^ excess53 a + 1) * 2 ^ excess53 a =
          2 ^ excess53 a * (a / 2 ^ excess53 a) + 2 ^ excess53 a := by ring
      rw [hexpand]
      constructor
      · linarith [hdm, hr, hdiv53, hhalf]
      · linarith [hdm, hmod]
    · rw [if_neg hcond]
      have hr : a % 2 ^ excess53 a ≤ 2 ^ (excess53 a - 1) := by
        by_contra h
        exact hcond (Or.inl (not_le.1 h))
      have hexp : a / 2 ^ excess53 a * 2 ^ excess53 a =
          2 ^ excess53 a * (a / 2 ^ excess53 a) := by ring
      rw [hexp]
      constructor
      · linarith [hdm, hmod, Nat.zero_le (a % 2 ^ excess53 a),
          Nat.zero_le (a / 2 ^ 53)]
      · linarith [hdm, hr, hdiv53]

/-- Bound on the truncated conversion result: within the startup range
`[0, 10^6]` eth the rounded product, truncated by `2^exp`, fits easily in
an unsigned 256-bit integer. -/
theorem weiTrunc_lt (v : F64) (h1 : v.sig ≤ (1000000 : ℤ) * 2 ^ v.exp) :
    roundNE53 (v.sig.toNat * 10 ^ 18) / 2 ^ v.exp < 2 ^ 256 := by
  have hcast : ((1000000 * 2 ^ v.exp : ℕ) : ℤ) = (1000000 : ℤ) * 2 ^ v.exp := by
    push_cast
    ring
  have hm : v.sig.toNat ≤ 1000000 * 2 ^ v.exp := Int.toNat_le.2 (hcast ▸ h1)
  have haU : v.sig.toNat * 10 ^ 18 ≤ 1000000 * 2 ^ v.exp * 10 ^ 18 :=
    Nat.mul_le_mul_right _ hm
  have hclose := (roundNE53_close (v.sig.toNat * 10 ^ 18)).1
  have hda : v.sig.toNat * 10 ^ 18 / 2 ^ 53 ≤ v.sig.toNat * 10 ^ 18 :=
    Nat.div_le_self _ _
  have h2a : roundNE53 (v.sig.toNat * 10 ^ 18) ≤ 2 * (v.sig.toNat * 10 ^ 18) := by
    omega
  have hb1 : roundNE53 (v.sig.toNat * 10 ^ 18) / 2 ^ v.exp ≤
      2 * (v.sig.toNat * 10 ^ 18) / 2 ^ v.exp := Nat.div_le_div_right h2a
  have hb2 : 2 * (v.sig.toNat * 10 ^ 18) ≤ 2 * (1000000 * 10 ^ 18) * 2 ^ v.exp := by
    calc 2 * (v.sig.toNat * 10 ^ 18) ≤ 2 * (1000000 * 2 ^ v.exp * 10 ^ 18) := by omega
      _ = 2 * (1000000 * 10 ^ 18) * 2 ^ v.exp := by ring
  have hb3 : 2 * (v.sig.toNat * 10 ^ 18) / 2 ^ v.exp ≤ 2 * (1000000 * 10 ^ 18) := by
    have hmono := Nat.div_le_div_right (c := 2 ^ v.exp) hb2
    rwa [Nat.mul_div_cancel _ (by positivity : (0 : ℕ) < 2 ^ v.exp)] at hmono
  calc roundNE53 (v.sig.toNat * 10 ^ 18) / 2 ^ v.exp
      ≤ 2 * (1000000 * 10 ^ 18) := le_trans hb1 hb3
    _ < 2 ^ 256 := by norm_num

/-- Within the startup range `[0, 10^6]` eth, the wei conversion always
succeeds and returns the 53-bit rounding of the exact product, truncated. -/
theorem floatEthTo256Wei_ok (v : F64) (h0 : 0 ≤ v.sig)
    (h1 : v.sig ≤ (1000000 : ℤ) * 2 ^ v.exp) :
    floatEthTo256Wei v =
      Except.ok (roundNE53 (v.sig.toNat * 10 ^ 18) / 2 ^ v.exp) := by
  unfold floatEthTo256Wei
  rw [if_neg (not_lt.2 h0), if_pos (weiTrunc_lt v h1)]

/-- Within the startup range the minimum-bid gate passes and yields the
rounded-then-truncated wei value. -/
theorem checkMinBid_ok (v : F64) (h0 : 0 ≤ v.sig)
    (h1 : v.sig ≤ (1000000 : ℤ) * 2 ^ v.exp) :
    checkMinBid v =
      Except.ok (roundNE53 (v.sig.toNat * 10 ^ 18) / 2 ^ v.exp) := by
  unfold checkMinBid
  rw [if_neg (not_lt.2 h0), if_neg (not_lt.2 h1), floatEthTo256Wei_ok v h0 h1]

/-- Winner selection only ever returns a member of its candidate list (or
the seed accumulator). -/
theorem foldl_selectStep_mem :
    ∀ (l : List Bid) (acc : Option Bid) (b : Bid),
      l.foldl selectStep acc = some b → b ∈ l ∨ acc = some b := by
  intro l
  induction l with
  | nil =>
    intro acc b h
    exact Or.inr h
  | cons x xs ih =>
    intro acc b h
    rw [List.foldl_cons] at h
    rcases ih (selectStep acc x) b h with hmem | hacc
    · exact Or.inl (List.mem_cons_of_mem _ hmem)
    · cases acc with
      | none =>
        simp only [selectStep] at hacc
        cases hacc
        exact Or.inl (List.mem_cons_self _ _)
      | some w =>
        simp only [selectStep] at hacc
        by_cases hv : w.value < x.value
        · rw [if_pos hv] at hacc
          cases hacc
          exact Or.inl (List.mem_cons_self _ _)
        · rw [if_neg hv] at hacc
          exact Or.inr hacc

/-- The selected winner is one of the candidates. -/
theorem selectBest_mem (l : List Bid) (b : Bid) (h : selectBest l = some b) :
    b ∈ l := by
  rcases foldl_selectStep_mem l none b h with hm | hnone
  · exact hm
  · exact Option.noConfusion hnone

/-- Reduction of `mainResolve` once the genesis fork version resolves, the
relay entries parse to a non-empty list, and the monitor entries parse: all
that remains is the minimum-bid gate. -/
theorem mainResolve_reduce (parseF : String → Option F64)
    (env : String → Option String) (a : MainArgs) (g : String)
    (rs : List RelayEntry) (ms : List String)
    (hgen : resolveGenesisForkVersion
      (a.customGenesis.getD (defaultGenesisForkVersion env))
      a.mainnet a.sepolia a.goerli = Except.ok g)
    (hrel : relayFold a.relayFlag a.relaysCSV = Except.ok rs)
    (hne : rs.length ≠ 0)
    (hmon : monitorFold a.relayMonitorFlag a.relayMonitorsCSV = Except.ok ms) :
    mainResolve parseF env a =
      match checkMinBid (resolvedMinBid parseF env a.minBidFlag) with
      | Except.error e => Except.error e
      | Except.ok w =>
        Except.ok
          { listenAddr := a.listenAddr
            relays := rs
            relayMonitors := ms
            genesisForkVersionHex := g
            relayCheck := a.relayCheck
            relayMinBid := w
            requestTimeoutGetHeaderMs := resolvedTimeoutGetHeaderMs env a.timeoutGetHeaderFlag
            requestTimeoutGetPayloadMs := resolvedTimeoutGetPayloadMs env a.timeoutGetPayloadFlag
            requestTimeoutRegValMs := resolvedTimeoutRegValMs env a.timeoutRegValFlag } := by
  unfold mainResolve
  simp only [hgen, hrel, hmon]
  rw [if_neg hne]

/-- Normal (non-censoring) bid of value 12 from registry position 0, used
by concrete witnesses. -/
def bidN : Bid := ⟨12, false, 0⟩

/-- Censoring bid of value 14 from registry position 1, used by concrete
witnesses. -/
def bidC : Bid := ⟨14, true, 1⟩

/-- C6: the startup relay health check is invoked if and only if the
relay-check boolean is enabled, and a zero-healthy-relay report is
non-fatal: the error is logged and the HTTP server is still started. -/
theorem spec_c6 (relayCheck : Bool) (healthyRelays : ℕ) :
    (startupPhase relayCheck healthyRelays).checkInvoked = relayCheck ∧
    (startupPhase relayCheck healthyRelays).loggedError
      = (relayCheck && healthyRelays == 0) ∧
    (startupPhase relayCheck healthyRelays).httpServerStarted = true := by
  cases relayCheck <;> simp [startupPhase]

/-- C7: `floatEthTo256Wei` is a pure deterministic function — equal
`float64` arguments give equal integer results and equal error outcomes,
independent of any other program state (the embedding takes no state). -/
theorem spec_c7 (v w : F64) (h : v = w) :
    floatEthTo256Wei v = floatEthTo256Wei w := by
  rw [h]

/-- Witness for C7 at the concrete argument 0.001. -/
theorem spec_c7_witness :
    floatEthTo256Wei lit0001 = floatEthTo256Wei lit0001 :=
  spec_c7 lit0001 lit0001 rfl

/-- C9: a non-empty `-genesis-fork-version` value (or the
`GENESIS_FORK_VERSION` environment default) takes precedence over
`-mainnet`, `-sepolia` and `-goerli`, which are otherwise consulted in that
order and map to 0x00000000, 0x90000069 and 0x00001020 respectively; with
none of the four supplied, `Main` exits fatally asking for a genesis fork
version. -/
theorem spec_c9 (env : String → Option String) (flagVal : Option String)
    (useMainnet useSepolia useGoerli : Bool) :
    (flagVal.getD (defaultGenesisForkVersion env) ≠ "" →
      resolveGenesisForkVersion (flagVal.getD (defaultGenesisForkVersion env))
        useMainnet useSepolia useGoerli
        = Except.ok (flagVal.getD (defaultGenesisForkVersion env))) ∧
    (flagVal.getD (defaultGenesisForkVersion env) = "" → useMainnet = true →
      resolveGenesisForkVersion (flagVal.getD (defaultGenesisForkVersion env))
        useMainnet useSepolia useGoerli = Except.ok "0x00000000") ∧
    (flagVal.getD (defaultGenesisForkVersion env) = "" → useMainnet = false →
      useSepolia = true →
      resolveGenesisForkVersion (flagVal.getD (defaultGenesisForkVersion env))
        useMainnet useSepolia useGoerli = Except.ok "0x90000069") ∧
    (flagVal.getD (defaultGenesisForkVersion env) = "" → useMainnet = false →
      useSepolia = false → useGoerli = true →
      resolveGenesisForkVersion (flagVal.getD (defaultGenesisForkVersion env))
        useMainnet useSepolia useGoerli = Except.ok "0x00001020") ∧
    (flagVal.getD (defaultGenesisForkVersion env) = "" → useMainnet = false →
      useSepolia = false → useGoerli = false →
      resolveGenesisForkVersion (flagVal.getD (defaultGenesisForkVersion env))
        useMainnet useSepolia useGoerli
        = Except.error "please specify a genesis fork version (eg. -mainnet / -sepolia / -goerli / -genesis-fork-version flags)") := by
  refine ⟨?_, ?_, ?_, ?_, ?_⟩ <;> intros <;>
    simp_all [resolveGenesisForkVersion, genesisForkVersionMainnet,
      genesisForkVersionSepolia, genesisForkVersionGoerli]

/-- Witness for C9 exercising all five branches at concrete inputs. -/
theorem spec_c9_witness :
    resolveGenesisForkVersion "0x12345678" true true true
      = Except.ok "0x12345678" ∧
    resolveGenesisForkVersion "" true true true = Except.ok "0x00000000" ∧
    resolveGenesisForkVersion "" false true true = Except.ok "0x90000069" ∧
    resolveGenesisForkVersion "" false false true = Except.ok "0x00001020" ∧
    resolveGenesisForkVersion "" false false false
      = Except.error "please specify a genesis fork version (eg. -mainnet / -sepolia / -goerli / -genesis-fork-version flags)" :=
  ⟨(spec_c9 env0 (some "0x12345678") true true true).1 (by decide),
   (spec_c9 env0 none true true true).2.1 rfl rfl,
   (spec_c9 env0 none false true true).2.2.1 rfl rfl rfl,
   (spec_c9 env0 none false false true).2.2.2.1 rfl rfl rfl rfl,
   (spec_c9 env0 none false false false).2.2.2.2 rfl rfl rfl rfl⟩

/-- C10: with the `-min-bid` flag absent and `RELAY_MIN_BID` absent or
unparseable, the minimum bid defaults to the float64 literal 0.001 eth,
which converts to exactly 10^15 wei. -/
theorem spec_c10 (parseF : String → Option F64) (env : String → Option String)
    (h : env "RELAY_MIN_BID" = none ∨
      ∃ s, env "RELAY_MIN_BID" = some s ∧ parseF s = none) :
    resolvedMinBid parseF env none = lit0001 ∧
    floatEthTo256Wei lit0001 = Except.ok (10 ^ 15) := by
  constructor
  · unfold resolvedMinBid defaultRelayMinBidEth getEnvFloat64
    rcases h with h | ⟨s, hs, hp⟩
    · simp [h]
    · simp [hs, hp]
  · rfl

/-- Witness for C10 at the empty environment and all-rejecting parser. -/
theorem spec_c10_witness :
    resolvedMinBid pf0 env0 none = lit0001 ∧
    floatEthTo256Wei lit0001 = Except.ok (10 ^ 15) :=
  spec_c10 pf0 env0 (Or.inl rfl)

/-- C2: a censoring candidate can win arbitration only if its value reaches
`bestNormal + censorshipPenalty`; below that threshold it never becomes the
round winner, even as the only candidate with a value above `minBid` (the
contrapositive of this bound). -/
theorem spec_c2 (cands : List Bid) (censorshipPenalty minBid : ℕ) (b : Bid)
    (hwin : arbitrate cands censorshipPenalty minBid = some b)
    (hcen : b.isCensoring = true) :
    bestNormal cands + censorshipPenalty ≤ b.value := by
  unfold arbitrate at hwin
  cases hsel : selectBest (cands.filter (eligibleBid cands censorshipPenalty)) with
  | none =>
    rw [hsel] at hwin
    exact Option.noConfusion hwin
  | some w =>
    rw [hsel] at hwin
    simp only [] at hwin
    by_cases hmb : minBid ≤ w.value
    · rw [if_pos hmb] at hwin
      cases hwin
      have hmem := selectBest_mem _ _ hsel
      have helig : eligibleBid cands censorshipPenalty b = true :=
        (List.mem_filter.1 hmem).2
      unfold eligibleBid at helig
      rw [hcen] at helig
      simpa using helig
    · rw [if_neg hmb] at hwin
      exact Option.noConfusion hwin

/-- Witness for C2: a censoring bid of 14 beats a normal bid of 12 under
penalty 1, and the theorem yields `bestNormal + 1 ≤ 14`. -/
theorem spec_c2_witness :
    bestNormal [bidN, bidC] + 1 ≤ 14 :=
  spec_c2 [bidN, bidC] 1 0 bidC (by decide) rfl

/-- C3 (amended): for every finite min-bid value in `[0, 10^6]` eth the
conversion returns, without error, an unsigned 256-bit wei integer — equal
to the value times 10^18 first rounded to 53 significant binary digits
(nearest, ties to even) and then truncated toward zero, hence within
`product / 2^53` of the exact product but not always exactly the truncated
exact product. -/
theorem spec_c3 (v : F64) (h0 : 0 ≤ v.sig)
    (h1 : v.sig ≤ (1000000 : ℤ) * 2 ^ v.exp) :
    floatEthTo256Wei v =
      Except.ok (roundNE53 (v.sig.toNat * 10 ^ 18) / 2 ^ v.exp) ∧
    roundNE53 (v.sig.toNat * 10 ^ 18) / 2 ^ v.exp < 2 ^ 256 ∧
    roundNE53 (v.sig.toNat * 10 ^ 18)
      ≤ v.sig.toNat * 10 ^ 18 + v.sig.toNat * 10 ^ 18 / 2 ^ 53 ∧
    v.sig.toNat * 10 ^ 18
      ≤ roundNE53 (v.sig.toNat * 10 ^ 18) + v.sig.toNat * 10 ^ 18 / 2 ^ 53 :=
  ⟨floatEthTo256Wei_ok v h0 h1, weiTrunc_lt v h1,
   (roundNE53_close (v.sig.toNat * 10 ^ 18)).1,
   (roundNE53_close (v.sig.toNat * 10 ^ 18)).2⟩

/-- Counterexample for C3 as stated: at the in-range value 999999 eth the
conversion returns 999998999999999972999168 wei, not the exact truncated
product 999999 * 10^18. -/
theorem spec_c3_cex :
    floatEthTo256Wei ⟨999999, 0⟩ = Except.ok 999998999999999972999168 ∧
    (999998999999999972999168 : ℕ) ≠ 999999 * 10 ^ 18 := by
  constructor
  · rfl
  · decide

/-- Witness for C3 at the concrete value 1 eth (whose product is exactly
representable in 53 bits, so the rounding is exact). -/
theorem spec_c3_witness : floatEthTo256Wei ⟨1, 0⟩ = Except.ok (10 ^ 18) := by
  rw [(spec_c3 ⟨1, 0⟩ (by decide) (by decide)).1]
  rfl

/-- Whatever the invocation, a successfully resolved configuration carries
exactly the flag-or-default timeout values. -/
theorem mainResolve_timeouts (parseF : String → Option F64)
    (env : String → Option String) (a : MainArgs) (o : BoostServiceOpts)
    (h : mainResolve parseF env a = Except.ok o) :
    o.requestTimeoutGetHeaderMs = resolvedTimeoutGetHeaderMs env a.timeoutGetHeaderFlag ∧
    o.requestTimeoutGetPayloadMs = resolvedTimeoutGetPayloadMs env a.timeoutGetPayloadFlag ∧
    o.requestTimeoutRegValMs = resolvedTimeoutRegValMs env a.timeoutRegValFlag := by
  unfold mainResolve at h
  split at h
  · exact Except.noConfusion h
  · split at h
    · exact Except.noConfusion h
    · split at h
      · exact Except.noConfusion h
      · split at h
        · exact Except.noConfusion h
        · split at h
          · exact Except.noConfusion h
          · injection h with h2
            subst h2
            exact ⟨rfl, rfl, rfl⟩

/-- C4: with none of the `RELAY_TIMEOUT_MS_*` variables set and none of
the `request-timeout-*` flags supplied, the per-operation relay timeouts
handed to the service are exactly 950 ms (get-header), 4000 ms
(get-payload) and 3000 ms (register-validator); each one independently
follows its own flag when that flag is supplied. -/
theorem spec_c4 (parseF : String → Option F64) (env : String → Option String)
    (a : MainArgs) (o : BoostServiceOpts)
    (h : mainResolve parseF env a = Except.ok o) :
    (o.requestTimeoutGetHeaderMs = resolvedTimeoutGetHeaderMs env a.timeoutGetHeaderFlag ∧
     o.requestTimeoutGetPayloadMs = resolvedTimeoutGetPayloadMs env a.timeoutGetPayloadFlag ∧
     o.requestTimeoutRegValMs = resolvedTimeoutRegValMs env a.timeoutRegValFlag) ∧
    (env "RELAY_TIMEOUT_MS_GETHEADER" = none → a.timeoutGetHeaderFlag = none →
      o.requestTimeoutGetHeaderMs = 950) ∧
    (env "RELAY_TIMEOUT_MS_GETPAYLOAD" = none → a.timeoutGetPayloadFlag = none →
      o.requestTimeoutGetPayloadMs = 4000) ∧
    (env "RELAY_TIMEOUT_MS_REGVAL" = none → a.timeoutRegValFlag = none →
      o.requestTimeoutRegValMs = 3000) ∧
    (∀ t, a.timeoutGetHeaderFlag = some t → o.requestTimeoutGetHeaderMs = t) ∧
    (∀ t, a.timeoutGetPayloadFlag = some t → o.requestTimeoutGetPayloadMs = t) ∧
    (∀ t, a.timeoutRegValFlag = some t → o.requestTimeoutRegValMs = t) := by
  obtain ⟨hgh, hgp, hrv⟩ := mainResolve_timeouts parseF env a o h
  refine ⟨⟨hgh, hgp, hrv⟩, ?_, ?_, ?_, ?_, ?_, ?_⟩
  · intro he hf
    rw [hgh]
    simp [resolvedTimeoutGetHeaderMs, defaultTimeoutMsGetHeader, getEnvInt, he, hf]
  · intro he hf
    rw [hgp]
    simp [resolvedTimeoutGetPayloadMs, defaultTimeoutMsGetPayload, getEnvInt, he, hf]
  · intro he hf
    rw [hrv]
    simp [resolvedTimeoutRegValMs, defaultTimeoutMsRegisterValidator, getEnvInt, he, hf]
  · intro t hf
    rw [hgh]
    simp [resolvedTimeoutGetHeaderMs, hf]
  · intro t hf
    rw [hgp]
    simp [resolvedTimeoutGetPayloadMs, hf]
  · intro t hf
    rw [hrv]
    simp [resolvedTimeoutRegValMs, hf]

/-- Witness for C4: the concrete default invocation resolves with timeouts
950/4000/3000 ms. -/
theorem spec_c4_witness :
    optsOk.requestTimeoutGetHeaderMs = 950 ∧
    optsOk.requestTimeoutGetPayloadMs = 4000 ∧
    optsOk.requestTimeoutRegValMs = 3000 :=
  have h := spec_c4 pf0 env0 argsOk optsOk (by rfl)
  ⟨h.2.1 rfl rfl, h.2.2.1 rfl rfl, h.2.2.2.1 rfl rfl⟩

/-- C5 (amended): once the genesis fork version resolves and every relay
entry parses, an empty relay list is fatal with exactly
"no relays specified" before the service is created; with at least one
relay, parsing monitors and an in-range min-bid, `Main` reaches service
creation. -/
theorem spec_c5 (parseF : String → Option F64) (env : String → Option String)
    (a : MainArgs) (g : String) (rs : List RelayEntry)
    (hgen : resolveGenesisForkVersion
      (a.customGenesis.getD (defaultGenesisForkVersion env))
      a.mainnet a.sepolia a.goerli = Except.ok g)
    (hrel : relayFold a.relayFlag a.relaysCSV = Except.ok rs) :
    (rs = [] → mainResolve parseF env a = Except.error "no relays specified") ∧
    (rs ≠ [] →
      ∀ ms, monitorFold a.relayMonitorFlag a.relayMonitorsCSV = Except.ok ms →
      0 ≤ (resolvedMinBid parseF env a.minBidFlag).sig →
      (resolvedMinBid parseF env a.minBidFlag).sig
        ≤ (1000000 : ℤ) * 2 ^ (resolvedMinBid parseF env a.minBidFlag).exp →
      ∃ o, mainResolve parseF env a = Except.ok o ∧ o.relays = rs) := by
  constructor
  · intro hnil
    unfold mainResolve
    simp only [hgen, hrel]
    rw [if_pos (by rw [hnil]; rfl)]
  · intro hne ms hmon h0 h1
    have hlen : rs.length ≠ 0 := by
      intro hl
      exact hne (List.length_eq_zero.1 hl)
    rw [mainResolve_reduce parseF env a g rs ms hgen hrel hlen hmon]
    rw [checkMinBid_ok _ h0 h1]
    exact ⟨_, rfl, rfl⟩

/-- Counterexample for C5 as stated: with no genesis fork version selected,
an invocation with an empty relay list exits fatally with the genesis
message, not with "no relays specified"; and an invocation with one relay
configured still does not reach service creation. -/
theorem spec_c5_cex :
    mainResolve pf0 env0 argsNoGenesisNoRelays =
      Except.error "please specify a genesis fork version (eg. -mainnet / -sepolia / -goerli / -genesis-fork-version flags)" ∧
    ("please specify a genesis fork version (eg. -mainnet / -sepolia / -goerli / -genesis-fork-version flags)" : String)
      ≠ "no relays specified" ∧
    mainResolve pf0 env0 argsNoGenesisOneRelay =
      Except.error "please specify a genesis fork version (eg. -mainnet / -sepolia / -goerli / -genesis-fork-version flags)" := by
  refine ⟨rfl, by decide, rfl⟩

/-- Witness for C5: the empty-relay-list branch and the service-creation
branch at concrete invocations. -/
theorem spec_c5_witness :
    mainResolve pf0 env0 argsNoRelays = Except.error "no relays specified" ∧
    ∃ o, mainResolve pf0 env0 argsOk = Except.ok o ∧ o.relays = [relay0] := by
  constructor
  · exact (spec_c5 pf0 env0 argsNoRelays "0x00000000" [] rfl rfl).1 rfl
  · exact (spec_c5 pf0 env0 argsOk "0x00000000" [relay0] rfl rfl).2
      (by decide) [] rfl (by decide) (by decide)

/-- Invocation whose `-min-bid` flag carries a negative value. -/
def argsNegBid : MainArgs := { argsOk with minBidFlag := some ⟨-1, 0⟩ }

/-- Invocation whose `-min-bid` flag carries 2000000 eth. -/
def argsHugeBid : MainArgs := { argsOk with minBidFlag := some ⟨2000000, 0⟩ }

/-- C8: once the earlier startup stages pass, `Main` terminates fatally when
the resolved min-bid is strictly negative or strictly above 1000000 eth,
and accepts (converting to wei) every value in `[0, 1000000]`. -/
theorem spec_c8 (parseF : String → Option F64) (env : String → Option String)
    (a : MainArgs) (g : String) (rs : List RelayEntry) (ms : List String)
    (hgen : resolveGenesisForkVersion
      (a.customGenesis.getD (defaultGenesisForkVersion env))
      a.mainnet a.sepolia a.goerli = Except.ok g)
    (hrel : relayFold a.relayFlag a.relaysCSV = Except.ok rs)
    (hne : rs.length ≠ 0)
    (hmon : monitorFold a.relayMonitorFlag a.relayMonitorsCSV = Except.ok ms) :
    ((resolvedMinBid parseF env a.minBidFlag).sig < 0 →
      mainResolve parseF env a =
        Except.error "Please specify a non-negative minimum bid") ∧
    ((1000000 : ℤ) * 2 ^ (resolvedMinBid parseF env a.minBidFlag).exp
        < (resolvedMinBid parseF env a.minBidFlag).sig →
      mainResolve parseF env a =
        Except.error "Minimum bid is too large, please ensure min-bid is denominated in Ethers") ∧
    (0 ≤ (resolvedMinBid parseF env a.minBidFlag).sig →
      (resolvedMinBid parseF env a.minBidFlag).sig
        ≤ (1000000 : ℤ) * 2 ^ (resolvedMinBid parseF env a.minBidFlag).exp →
      ∃ o, mainResolve parseF env a = Except.ok o ∧
        o.relayMinBid =
          roundNE53 ((resolvedMinBid parseF env a.minBidFlag).sig.toNat * 10 ^ 18)
            / 2 ^ (resolvedMinBid parseF env a.minBidFlag).exp) := by
  rw [mainResolve_reduce parseF env a g rs ms hgen hrel hne hmon]
  refine ⟨?_, ?_, ?_⟩
  · intro hneg
    have hc : checkMinBid (resolvedMinBid parseF env a.minBidFlag) =
        Except.error "Please specify a non-negative minimum bid" := by
      unfold checkMinBid
      rw [if_pos hneg]
    rw [hc]
  · intro hlarge
    have hp : (0 : ℤ) ≤ 1000000 * 2 ^ (resolvedMinBid parseF env a.minBidFlag).exp := by
      positivity
    have hnn : ¬ (resolvedMinBid parseF env a.minBidFlag).sig < 0 := by
      omega
    have hc : checkMinBid (resolvedMinBid parseF env a.minBidFlag) =
        Except.error "Minimum bid is too large, please ensure min-bid is denominated in Ethers" := by
      unfold checkMinBid
      rw [if_neg hnn, if_pos hlarge]
    rw [hc]
  · intro h0 h1
    rw [checkMinBid_ok _ h0 h1]
    exact ⟨_, rfl, rfl⟩

/-- Witness for C8 exercising the three branches at concrete invocations;
the accepted default min-bid converts to 10^15 wei. -/
theorem spec_c8_witness :
    mainResolve pf0 env0 argsNegBid =
      Except.error "Please specify a non-negative minimum bid" ∧
    mainResolve pf0 env0 argsHugeBid =
      Except.error "Minimum bid is too large, please ensure min-bid is denominated in Ethers" ∧
    ∃ o, mainResolve pf0 env0 argsOk = Except.ok o ∧ o.relayMinBid = 10 ^ 15 := by
  refine ⟨?_, ?_, ?_⟩
  · exact (spec_c8 pf0 env0 argsNegBid "0x00000000" [relay0] [] rfl rfl
      (by decide) rfl).1 (by decide)
  · exact (spec_c8 pf0 env0 argsHugeBid "0x00000000" [relay0] [] rfl rfl
      (by decide) rfl).2.1 (by decide)
  · obtain ⟨o, ho, hmb⟩ := (spec_c8 pf0 env0 argsOk "0x00000000" [relay0] [] rfl rfl
      (by decide) rfl).2.2 (by decide) (by decide)
    exact ⟨o, ho, hmb.trans (by rfl)⟩

/-- C1: the command-line layer of `cli/main.go` registers no
`censoring-relays` and no `censorship-penalty` flag — so the repository
README's own example invocation is rejected by flag parsing — and
consequently no censoring-relay list or censorship penalty reaches the
configuration object (`BoostServiceOpts` carries no such field). -/
theorem spec_c1 :
    lookupFlag mainFlagDefs ("censoring-relays").data = none ∧
    lookupFlag mainFlagDefs ("censorship-penalty").data = none ∧
    parseFlagsCL mainFlagDefs readmeExampleArgs =
      Except.error "flag provided but not defined: -censorship-penalty" := by
  refine ⟨rfl, rfl, rfl⟩
